import Mathlib

/-! A shallow embedding of `src/vm/engine.cc` (fesql/vm): the compile-cache
engine (`Engine::Get`, `Engine::Explain`, `Engine::ClearCacheLocked`,
`Engine::GetCacheLocked`) and the run sessions (`RequestRunSession::Run`,
`BatchRunSession::Run` in both overloads).

External collaborators that are not part of this translation unit — the
`SQLCompiler` and the `Runner` — are modelled as uninterpreted function
parameters, matching the spec's description of them as external
collaborators with narrow contracts.  `std::map` is modelled by
association lists with `find` / `insert` / `erase` / `operator[]`
operations; `shared_ptr<CompileInfo>` identity is modelled by giving each
freshly allocated `CompileInfo` a distinct allocation id drawn from a
counter threaded through the engine state.
-/

set_option autoImplicit false

/-- Status models `base::Status`: a numeric code (0 = success) and a message. -/
structure Status where
  code : Int := 0
  msg : String := ""
deriving DecidableEq, Repr

/-- SQLContext keeps the fields of the SQL context that this translation unit
reads or writes.  `sql`, `db`, `is_batch_mode` are set by the engine before
compiling; the remaining fields stand for the compiler-produced outputs
that `Engine::Explain` copies out (schemas, plans, IR), modelled as opaque
strings. -/
structure SQLContext where
  sql : String := ""
  db : String := ""
  is_batch_mode : Bool := false
  request_schema : String := ""
  schema : String := ""
  logical_plan : String := ""
  physical_plan : String := ""
  ir : String := ""
deriving DecidableEq, Repr

/-- CompileInfo is the compiled artifact.  `alloc_id` models the identity
of the `shared_ptr<CompileInfo>` allocation (`new CompileInfo()`), so that
"references to the same CompileInfo" is expressible. -/
structure CompileInfo where
  alloc_id : Nat
  sql_context : SQLContext
deriving DecidableEq, Repr

/-- Result of one compiler step (`Compile` or `BuildRunner`): the returned
`bool`, the status written through the out-parameter, and the SQL context
as mutated in place. -/
structure CompileCall where
  ok : Bool
  status : Status
  ctx : SQLContext

/-- The external `SQLCompiler` collaborator, modelled as uninterpreted
deterministic functions of the SQL context.  The constructor arguments
(catalog snapshot, keep-IR / dump-plan / plan-only flags) are absorbed
into the function, since every claim quantifies over all compilers. -/
structure SQLCompilerModel where
  Compile : SQLContext → CompileCall
  BuildRunner : SQLContext → CompileCall

/-- EngineOptions fields read by `Engine::Get`. -/
structure EngineOptions where
  is_keep_ir : Bool := false
  is_plan_only : Bool := false
  is_compile_only : Bool := false
deriving DecidableEq, Repr

/-- Model of `std::map<std::string, α>` as an association list with unique keys
maintained by the operations below. -/
abbrev StrMap (α : Type) : Type := List (String × α)

/-- Model of `std::map::find`. -/
def assocFind {α : Type} : StrMap α → String → Option α
  | [], _ => none
  | (k, v) :: rest, key => if k = key then some v else assocFind rest key

/-- Writing value `v` at key `k` (the effect of mutating through the
reference returned by `operator[]`): overwrites the entry if `k` is
present, appends it otherwise. -/
def assocSet {α : Type} : StrMap α → String → α → StrMap α
  | [], k, v => [(k, v)]
  | (k', v') :: rest, k, v =>
      if k' = k then (k, v) :: rest else (k', v') :: assocSet rest k v

/-- Model of `std::map::erase(key)`. -/
def assocErase {α : Type} : StrMap α → String → StrMap α
  | [], _ => []
  | (k', v') :: rest, k =>
      if k' = k then assocErase rest k else (k', v') :: assocErase rest k

/-- EngineCache maps database name to (SQL text → CompileInfo). -/
abbrev EngineCache : Type := StrMap (StrMap CompileInfo)

/-- Engine state: the two caches, the options, and the allocation counter
modelling `new CompileInfo()` (the catalog and LLVM globals play no role
in the claims and the compiler model already closes over the catalog). -/
structure Engine where
  options_ : EngineOptions := {}
  batch_cache_ : EngineCache := []
  request_cache_ : EngineCache := []
  next_alloc : Nat := 0
deriving DecidableEq, Repr

/-- RunSession state: `IsBatchRun()` (fixed per concrete subclass),
the bound compile info, and the debug flag. -/
structure RunSession where
  is_batch_run : Bool
  compile_info_ : Option CompileInfo := none
  is_debug_ : Bool := false
deriving DecidableEq, Repr

/-- Model of `RunSession::SetCompileInfo`. -/
def RunSession.SetCompileInfo (s : RunSession) (info : CompileInfo) : RunSession :=
  { s with compile_info_ := some info }

/-- The body shared by both branches of `Engine::GetCacheLocked`: look
`db` up in the given cache, then `sql` inside the inner map; a null
`shared_ptr` result is `none`. -/
def cacheFind (cache : EngineCache) (db sql : String) : Option CompileInfo :=
  match assocFind cache db with
  | none => none
  | some sql_in_db => assocFind sql_in_db sql

/-- Model of `Engine::GetCacheLocked` (lines 159–186): probe the cache selected by
`is_batch`. -/
def Engine.GetCacheLocked (e : Engine) (db sql : String) (is_batch : Bool) :
    Option CompileInfo :=
  if is_batch then cacheFind e.batch_cache_ db sql
  else cacheFind e.request_cache_ db sql

/-- The locked re-check-and-insert block of `Engine::Get` (lines 94–122),
acting on one mode's cache: `cache[db]` (default-constructing on absence,
as `operator[]` does), `find(sql)`, then either insert the new `info` and
bind it, or bind the pre-existing entry and leave the map unchanged. -/
def cacheCheckInsert (cache : EngineCache) (db sql : String)
    (info : CompileInfo) (session : RunSession) : EngineCache × RunSession :=
  let sql_in_db := (assocFind cache db).getD []
  match assocFind sql_in_db sql with
  | none =>
      (assocSet cache db (sql_in_db ++ [(sql, info)]), session.SetCompileInfo info)
  | some existing =>
      (assocSet cache db sql_in_db, session.SetCompileInfo existing)

/-- Result of `Engine::Get`: the returned `bool`, the session and status
out-parameters, the engine state, and how many times `compiler.Compile`
ran during the call (0 on a cache hit, 1 on the compile path). -/
structure GetResult where
  ret : Bool
  session : RunSession
  status : Status
  engine : Engine
  compiled : Nat
deriving DecidableEq, Repr

/-- Model of `Engine::Get` (lines 63–124): cache probe, then compile, then
optionally build the runner, then the locked re-check-and-insert. -/
def Engine.Get (c : SQLCompilerModel) (e : Engine) (sql db : String)
    (session : RunSession) (status : Status) : GetResult :=
  match Engine.GetCacheLocked e db sql session.is_batch_run with
  | some info =>
      { ret := true, session := session.SetCompileInfo info, status := status,
        engine := e, compiled := 0 }
  | none =>
      let ctx0 : SQLContext :=
        { sql := sql, db := db, is_batch_mode := session.is_batch_run }
      let cres := c.Compile ctx0
      let e1 : Engine := { e with next_alloc := e.next_alloc + 1 }
      if !cres.ok || cres.status.code ≠ 0 then
        { ret := false, session := session, status := cres.status,
          engine := e1, compiled := 1 }
      else if e.options_.is_compile_only then
        getInsert e1 db sql
          { alloc_id := e.next_alloc, sql_context := cres.ctx } session cres.status
      else
        let bres := c.BuildRunner cres.ctx
        if !bres.ok || bres.status.code ≠ 0 then
          { ret := false, session := session, status := bres.status,
            engine := e1, compiled := 1 }
        else
          getInsert e1 db sql
            { alloc_id := e.next_alloc, sql_context := bres.ctx } session bres.status
where
  /-- The tail of `Engine::Get` after a successful compile: dispatch the
  locked check-and-insert to the cache selected by the session's mode.
  `compiled := 1` records that this path ran the compiler once. -/
  getInsert (e : Engine) (db sql : String) (info : CompileInfo)
      (session : RunSession) (status : Status) : GetResult :=
    if session.is_batch_run then
      let p := cacheCheckInsert e.batch_cache_ db sql info session
      { ret := true, session := p.2, status := status,
        engine := { e with batch_cache_ := p.1 }, compiled := 1 }
    else
      let p := cacheCheckInsert e.request_cache_ db sql info session
      { ret := true, session := p.2, status := status,
        engine := { e with request_cache_ := p.1 }, compiled := 1 }

/-- ExplainOutput is the diagnostic snapshot filled by `Engine::Explain`. -/
structure ExplainOutput where
  input_schema : String := ""
  output_schema : String := ""
  logical_plan : String := ""
  physical_plan : String := ""
  ir : String := ""
deriving DecidableEq, Repr

/-- Result of `Engine::Explain`: returned `bool`, the two out-pointers
(`none` models a NULL argument), the engine state, and the number of
`compiler.Compile` runs during the call. -/
structure ExplainResult where
  ret : Bool
  explain_output : Option ExplainOutput
  status : Option Status
  engine : Engine
  compiled : Nat
deriving DecidableEq, Repr

/-- Model of `Engine::Explain` (lines 126–151): reject NULL out-arguments, build a
transient context, compile, and copy schemas / plans / IR out. -/
def Engine.Explain (c : SQLCompilerModel) (e : Engine) (sql db : String)
    (is_batch : Bool) (explain_output : Option ExplainOutput)
    (status : Option Status) : ExplainResult :=
  if explain_output.isNone || status.isNone then
    { ret := false, explain_output := explain_output, status := status,
      engine := e, compiled := 0 }
  else
    let ctx0 : SQLContext := { sql := sql, db := db, is_batch_mode := is_batch }
    let cres := c.Compile ctx0
    if !cres.ok || cres.status.code ≠ 0 then
      { ret := false, explain_output := explain_output,
        status := some cres.status, engine := e, compiled := 1 }
    else
      { ret := true,
        explain_output := some
          { input_schema := cres.ctx.request_schema,
            output_schema := cres.ctx.schema,
            logical_plan := cres.ctx.logical_plan,
            physical_plan := cres.ctx.physical_plan,
            ir := cres.ctx.ir },
        status := some cres.status, engine := e, compiled := 1 }

/-- Model of `Engine::ClearCacheLocked` (lines 153–157): erase `db` from both
caches under the lock. -/
def Engine.ClearCacheLocked (e : Engine) (db : String) : Engine :=
  { e with batch_cache_ := assocErase e.batch_cache_ db,
           request_cache_ := assocErase e.request_cache_ db }

/-- A row payload (`codec::Row` is external; its contents are opaque to
this translation unit). -/
structure Row where
  data : Nat
deriving DecidableEq, Repr

/-- RunnerContext carries the request row (present in request mode, absent in
batch mode) and the debug flag. -/
structure RunnerContext where
  request : Option Row := none
  is_debug : Bool := false
deriving DecidableEq, Repr

/-- The runner's polymorphic output (`DataHandler` hierarchy), as consumed
by the sessions.  A table handler is observed only through `GetIterator`
(which may return a null iterator, modelled `none`) and iteration
(`SeekToFirst` / `Valid` / `GetValue` / `Next`), modelled as the yielded
row sequence.  A row handler is observed through `GetValue`.  Partition
handlers are never inspected beyond their type tag. -/
inductive DataHandler : Type where
  | table (iter : Option (List Row))
  | row (value : Row)
  | partition
deriving DecidableEq, Repr

/-- The external runner: `Runner::RunWithCache`, an uninterpreted function
from the runner context to a possibly-null output handler. -/
abbrev RunnerModel : Type := RunnerContext → Option DataHandler

/-- Model of `RequestRunSession::Run(in_row, out_row)` (lines 197–228).  Returns
the `int32_t` result and the final value of `*out_row` (equal to the
argument `out_row` whenever the code does not write through the
pointer). -/
def RequestRunSession.Run (runWithCache : RunnerModel) (is_debug : Bool)
    (in_row : Row) (out_row : Row) : Int × Row :=
  match runWithCache { request := some in_row, is_debug := is_debug } with
  | none => (-1, out_row)
  | some (DataHandler.table iter) =>
      match iter with
      | none => (0, out_row)
      | some rows =>
          match rows with
          | [] => (0, out_row)
          | r :: _ => (0, r)
  | some (DataHandler.row r) => (0, r)
  | some DataHandler.partition => (-1, out_row)

/-- Model of `BatchRunSession::Run()` (lines 230–254).  The returned
`shared_ptr<TableHandler>` is `none` when null; a non-null table handler
is represented by its iterator (itself possibly null).  A row handler is
wrapped into a fresh `MemTableHandler` holding exactly that row. -/
def BatchRunSession.Run (runWithCache : RunnerModel) (is_debug : Bool) :
    Option (Option (List Row)) :=
  match runWithCache { request := none, is_debug := is_debug } with
  | none => none
  | some (DataHandler.table iter) => some iter
  | some (DataHandler.row r) => some (some [r])
  | some DataHandler.partition => none

/-- Model of `BatchRunSession::Run(rows, limit)` (lines 255–287): drain the output
into the caller's vector.  Returns the `int32_t` result and the final
contents of `rows`.  Note: the `while (iter->Valid())` loop pushes every
row the iterator yields; the `limit` argument is never read. -/
def BatchRunSession.RunVec (runWithCache : RunnerModel) (is_debug : Bool)
    (rows : List Row) (limit : Nat) : Int × List Row :=
  match runWithCache { request := none, is_debug := is_debug } with
  | none => (-1, rows)
  | some (DataHandler.table iter) =>
      match iter with
      | none => (0, rows)
      | some trows => (0, rows ++ trows)
  | some (DataHandler.row r) => (0, rows ++ [r])
  | some DataHandler.partition => (-1, rows)

/-! Concrete collaborator instances.

Closed instances of the uninterpreted collaborators, used to evaluate the
engine on concrete inputs. -/

/-- A compiler whose two steps always succeed and leave the context as
given. -/
def okCompiler : SQLCompilerModel :=
  { Compile := fun ctx => { ok := true, status := {}, ctx := ctx },
    BuildRunner := fun ctx => { ok := true, status := {}, ctx := ctx } }

/-- A compiler whose `Compile` step fails with a non-zero status. -/
def failCompiler : SQLCompilerModel :=
  { Compile := fun ctx => { ok := false, status := { code := 2, msg := "bad sql" }, ctx := ctx },
    BuildRunner := fun ctx => { ok := true, status := {}, ctx := ctx } }

/-- A compiler whose `Compile` step succeeds but whose `BuildRunner` step
fails with a non-zero status. -/
def failRunnerCompiler : SQLCompilerModel :=
  { Compile := fun ctx => { ok := true, status := {}, ctx := ctx },
    BuildRunner := fun ctx => { ok := false, status := { code := 3, msg := "no runner" }, ctx := ctx } }

/-- A runner that always produces a row handler holding `r`. -/
def rowRunner (r : Row) : RunnerModel := fun _ => some (DataHandler.row r)

/-- A runner that always produces a table handler yielding `rows`. -/
def tableRunner (rows : List Row) : RunnerModel :=
  fun _ => some (DataHandler.table (some rows))

/-- A runner that always produces a partition handler at the root. -/
def partitionRunner : RunnerModel := fun _ => some DataHandler.partition

/-! Association-list lemmas. -/

theorem assocFind_assocSet_self {α : Type} (m : StrMap α) (k : String) (v : α) :
    assocFind (assocSet m k v) k = some v := by
  induction m with
  | nil => simp [assocSet, assocFind]
  | cons p rest ih =>
      obtain ⟨k', v'⟩ := p
      by_cases h : k' = k
      · simp [assocSet, h, assocFind]
      · simp [assocSet, h, assocFind, ih]

theorem assocFind_assocSet_ne {α : Type} (m : StrMap α) (k key : String) (v : α)
    (h : key ≠ k) : assocFind (assocSet m k v) key = assocFind m key := by
  have h' : k ≠ key := h.symm
  induction m with
  | nil => simp [assocSet, assocFind, h']
  | cons p rest ih =>
      obtain ⟨k', v'⟩ := p
      by_cases hk : k' = k
      · subst hk
        simp [assocSet, assocFind, h']
      · simp [assocSet, hk, assocFind, ih]

theorem assocSet_self {α : Type} (m : StrMap α) (k : String) (v : α)
    (h : assocFind m k = some v) : assocSet m k v = m := by
  induction m with
  | nil => simp [assocFind] at h
  | cons p rest ih =>
      obtain ⟨k', v'⟩ := p
      by_cases hk : k' = k
      · subst hk
        simp [assocFind] at h
        simp [assocSet, h]
      · simp [assocFind, hk] at h
        simp [assocSet, hk, ih h]

theorem assocFind_append_self {α : Type} (m : StrMap α) (k : String) (v : α)
    (h : assocFind m k = none) : assocFind (m ++ [(k, v)]) k = some v := by
  induction m with
  | nil => simp [assocFind]
  | cons p rest ih =>
      obtain ⟨k', v'⟩ := p
      by_cases hk : k' = k
      · simp [assocFind, hk] at h
      · simp [assocFind, hk] at h ⊢
        exact ih h

theorem assocFind_assocErase_self {α : Type} (m : StrMap α) (k : String) :
    assocFind (assocErase m k) k = none := by
  induction m with
  | nil => simp [assocErase, assocFind]
  | cons p rest ih =>
      obtain ⟨k', v'⟩ := p
      by_cases hk : k' = k
      · simp [assocErase, hk, ih]
      · simp [assocErase, hk, assocFind, ih]

theorem assocFind_assocErase_ne {α : Type} (m : StrMap α) (k key : String)
    (h : key ≠ k) : assocFind (assocErase m k) key = assocFind m key := by
  have h' : k ≠ key := h.symm
  induction m with
  | nil => simp [assocErase]
  | cons p rest ih =>
      obtain ⟨k', v'⟩ := p
      by_cases hk : k' = k
      · subst hk
        simp [assocErase, assocFind, h', ih]
      · simp [assocErase, hk, assocFind, ih]

/-! Cache-level lemmas. -/

theorem cacheFind_as_getD (cache : EngineCache) (db sql : String) :
    cacheFind cache db sql = assocFind ((assocFind cache db).getD []) sql := by
  cases h : assocFind cache db <;> simp [cacheFind, h, assocFind]

/-- On a (db, sql) miss, the locked block inserts the fresh info and binds it. -/
theorem cacheCheckInsert_miss (cache : EngineCache) (db sql : String)
    (info : CompileInfo) (s : RunSession) (h : cacheFind cache db sql = none) :
    cacheCheckInsert cache db sql info s =
      (assocSet cache db (((assocFind cache db).getD []) ++ [(sql, info)]),
       s.SetCompileInfo info) := by
  rw [cacheFind_as_getD] at h
  simp [cacheCheckInsert, h]

/-- After the locked block, the cache holds the info the session was bound to. -/
theorem cacheCheckInsert_find (cache : EngineCache) (db sql : String)
    (info : CompileInfo) (s : RunSession) :
    ∃ i, (cacheCheckInsert cache db sql info s).2 = s.SetCompileInfo i ∧
      cacheFind (cacheCheckInsert cache db sql info s).1 db sql = some i := by
  cases h : assocFind ((assocFind cache db).getD []) sql with
  | none =>
      refine ⟨info, ?_, ?_⟩ <;> simp [cacheCheckInsert, h, cacheFind,
        assocFind_assocSet_self, assocFind_append_self _ _ _ h]
  | some existing =>
      refine ⟨existing, ?_, ?_⟩ <;>
        simp [cacheCheckInsert, h, cacheFind, assocFind_assocSet_self]

/-! Path lemmas for `Engine::Get`. -/

/-- A cache hit returns the cached entry with no compilation and no state
change. -/
theorem Engine.Get_hit (c : SQLCompilerModel) (e : Engine) (sql db : String)
    (s : RunSession) (st : Status) (i : CompileInfo)
    (hc : Engine.GetCacheLocked e db sql s.is_batch_run = some i) :
    Engine.Get c e sql db s st =
      { ret := true, session := s.SetCompileInfo i, status := st,
        engine := e, compiled := 0 } := by
  simp [Engine.Get, hc]

/-- The critical section always returns success, binds the session to some
info, stores that info at (db, sql) in the mode-selected cache, and keeps
the incoming status. -/
theorem Engine.getInsert_spec (e : Engine) (db sql : String)
    (info : CompileInfo) (s : RunSession) (st : Status) :
    ∃ i,
      (Engine.Get.getInsert e db sql info s st).ret = true ∧
      (Engine.Get.getInsert e db sql info s st).session = s.SetCompileInfo i ∧
      (Engine.Get.getInsert e db sql info s st).status = st ∧
      (Engine.Get.getInsert e db sql info s st).compiled = 1 ∧
      Engine.GetCacheLocked (Engine.Get.getInsert e db sql info s st).engine
        db sql s.is_batch_run = some i := by
  cases hb : s.is_batch_run with
  | true =>
      obtain ⟨i, h1, h2⟩ := cacheCheckInsert_find e.batch_cache_ db sql info s
      exact ⟨i, by simp [Engine.Get.getInsert, hb, h1, h2, Engine.GetCacheLocked]⟩
  | false =>
      obtain ⟨i, h1, h2⟩ := cacheCheckInsert_find e.request_cache_ db sql info s
      exact ⟨i, by simp [Engine.Get.getInsert, hb, h1, h2, Engine.GetCacheLocked]⟩

/-- The critical section of a batch-mode call leaves the request cache,
the options and the allocation counter untouched. -/
theorem Engine.getInsert_frame_batch (e : Engine) (db sql : String)
    (info : CompileInfo) (s : RunSession) (st : Status)
    (hb : s.is_batch_run = true) :
    (Engine.Get.getInsert e db sql info s st).engine.request_cache_ =
      e.request_cache_ ∧
    (Engine.Get.getInsert e db sql info s st).engine.options_ = e.options_ ∧
    (Engine.Get.getInsert e db sql info s st).engine.next_alloc = e.next_alloc := by
  simp [Engine.Get.getInsert, hb]

/-- The critical section of a request-mode call leaves the batch cache,
the options and the allocation counter untouched. -/
theorem Engine.getInsert_frame_request (e : Engine) (db sql : String)
    (info : CompileInfo) (s : RunSession) (st : Status)
    (hb : s.is_batch_run = false) :
    (Engine.Get.getInsert e db sql info s st).engine.batch_cache_ =
      e.batch_cache_ ∧
    (Engine.Get.getInsert e db sql info s st).engine.options_ = e.options_ ∧
    (Engine.Get.getInsert e db sql info s st).engine.next_alloc = e.next_alloc := by
  simp [Engine.Get.getInsert, hb]

/-- When the critical section re-check misses (the sequential case, and
the compile path after a probe miss), the fresh info itself is inserted
and bound. -/
theorem Engine.getInsert_miss (e : Engine) (db sql : String)
    (info : CompileInfo) (s : RunSession) (st : Status)
    (hm : Engine.GetCacheLocked e db sql s.is_batch_run = none) :
    (Engine.Get.getInsert e db sql info s st).session = s.SetCompileInfo info ∧
    Engine.GetCacheLocked (Engine.Get.getInsert e db sql info s st).engine
      db sql s.is_batch_run = some info := by
  cases hb : s.is_batch_run with
  | true =>
      rw [hb] at hm
      simp only [Engine.GetCacheLocked, if_pos] at hm
      have hm' : assocFind ((assocFind e.batch_cache_ db).getD []) sql = none :=
        (cacheFind_as_getD e.batch_cache_ db sql).symm.trans hm
      have hmiss := cacheCheckInsert_miss e.batch_cache_ db sql info s hm
      constructor
      · simp [Engine.Get.getInsert, hb, hmiss]
      · simp [Engine.Get.getInsert, hb, hmiss, Engine.GetCacheLocked, cacheFind,
          assocFind_assocSet_self, assocFind_append_self _ _ _ hm']
  | false =>
      rw [hb] at hm
      simp only [Engine.GetCacheLocked, Bool.false_eq_true, if_false] at hm
      have hm' : assocFind ((assocFind e.request_cache_ db).getD []) sql = none :=
        (cacheFind_as_getD e.request_cache_ db sql).symm.trans hm
      have hmiss := cacheCheckInsert_miss e.request_cache_ db sql info s hm
      constructor
      · simp [Engine.Get.getInsert, hb, hmiss]
      · simp [Engine.Get.getInsert, hb, hmiss, Engine.GetCacheLocked, cacheFind,
          assocFind_assocSet_self, assocFind_append_self _ _ _ hm']

/-- Field-level facts about the critical section that hold in both modes. -/
theorem Engine.getInsert_fields (e : Engine) (db sql : String)
    (info : CompileInfo) (s : RunSession) (st : Status) :
    (Engine.Get.getInsert e db sql info s st).ret = true ∧
    (Engine.Get.getInsert e db sql info s st).compiled = 1 ∧
    (Engine.Get.getInsert e db sql info s st).status = st ∧
    (Engine.Get.getInsert e db sql info s st).engine.next_alloc = e.next_alloc ∧
    (Engine.Get.getInsert e db sql info s st).engine.options_ = e.options_ := by
  cases hb : s.is_batch_run <;> simp [Engine.Get.getInsert, hb]

/-- Lookup in `GetCacheLocked` reads nothing but the two cache maps. -/
theorem Engine.GetCacheLocked_congr (e e' : Engine) (db sql : String) (m : Bool)
    (hb : e'.batch_cache_ = e.batch_cache_)
    (hr : e'.request_cache_ = e.request_cache_) :
    Engine.GetCacheLocked e' db sql m = Engine.GetCacheLocked e db sql m := by
  cases m <;> simp [Engine.GetCacheLocked, hb, hr]

/-- On a cache miss, `Engine::Get` either fails after a compile with the
allocation counter advanced and everything else untouched, or runs the
critical section on the freshly allocated info (`alloc_id = e.next_alloc`). -/
theorem Engine.Get_miss_cases (c : SQLCompilerModel) (e : Engine)
    (sql db : String) (s : RunSession) (st : Status)
    (hc : Engine.GetCacheLocked e db sql s.is_batch_run = none) :
    (∃ stf, Engine.Get c e sql db s st =
      { ret := false, session := s, status := stf,
        engine := { e with next_alloc := e.next_alloc + 1 }, compiled := 1 }) ∨
    (∃ ctx stok, Engine.Get c e sql db s st =
      Engine.Get.getInsert { e with next_alloc := e.next_alloc + 1 } db sql
        { alloc_id := e.next_alloc, sql_context := ctx } s stok) := by
  simp only [Engine.Get, hc]
  split
  · exact Or.inl ⟨_, rfl⟩
  · split
    · exact Or.inr ⟨_, _, rfl⟩
    · split
      · exact Or.inl ⟨_, rfl⟩
      · exact Or.inr ⟨_, _, rfl⟩

/-- Any `Get` that starts from a miss on the selected cache runs the
compiler exactly once. -/
theorem Engine.Get_miss_compiled (c : SQLCompilerModel) (e : Engine)
    (sql db : String) (s : RunSession) (st : Status)
    (hc : Engine.GetCacheLocked e db sql s.is_batch_run = none) :
    (Engine.Get c e sql db s st).compiled = 1 := by
  rcases Engine.Get_miss_cases c e sql db s st hc with ⟨stf, h⟩ | ⟨ctx, stok, h⟩
  · rw [h]
  · rw [h]
    exact (Engine.getInsert_fields _ db sql _ s stok).2.1

/-- Any successful `Get` leaves the session bound to an info that the
mode-selected cache holds at (db, sql) afterwards. -/
theorem Engine.Get_success_cache (c : SQLCompilerModel) (e : Engine)
    (sql db : String) (s : RunSession) (st : Status)
    (h : (Engine.Get c e sql db s st).ret = true) :
    ∃ i, (Engine.Get c e sql db s st).session = s.SetCompileInfo i ∧
      Engine.GetCacheLocked (Engine.Get c e sql db s st).engine db sql
        s.is_batch_run = some i := by
  cases hc : Engine.GetCacheLocked e db sql s.is_batch_run with
  | some info =>
      rw [Engine.Get_hit c e sql db s st info hc]
      exact ⟨info, rfl, hc⟩
  | none =>
      rcases Engine.Get_miss_cases c e sql db s st hc with ⟨stf, heq⟩ | ⟨ctx, stok, heq⟩
      · rw [heq] at h
        simp at h
      · rw [heq]
        obtain ⟨i, _, h2, _, _, h5⟩ := Engine.getInsert_spec
          { e with next_alloc := e.next_alloc + 1 } db sql
          { alloc_id := e.next_alloc, sql_context := ctx } s stok
        exact ⟨i, h2, h5⟩

/-- A successful `Get` from a miss binds and caches the freshly allocated
info (its `alloc_id` is the engine's allocation counter) and advances the
counter. -/
theorem Engine.Get_miss_success (c : SQLCompilerModel) (e : Engine)
    (sql db : String) (s : RunSession) (st : Status)
    (hc : Engine.GetCacheLocked e db sql s.is_batch_run = none)
    (h : (Engine.Get c e sql db s st).ret = true) :
    (Engine.Get c e sql db s st).engine.next_alloc = e.next_alloc + 1 ∧
    ∃ ctx,
      (Engine.Get c e sql db s st).session =
        s.SetCompileInfo { alloc_id := e.next_alloc, sql_context := ctx } ∧
      Engine.GetCacheLocked (Engine.Get c e sql db s st).engine db sql
        s.is_batch_run = some { alloc_id := e.next_alloc, sql_context := ctx } := by
  rcases Engine.Get_miss_cases c e sql db s st hc with ⟨stf, heq⟩ | ⟨ctx, stok, heq⟩
  · rw [heq] at h
    simp at h
  · rw [heq]
    have hc1 : Engine.GetCacheLocked { e with next_alloc := e.next_alloc + 1 }
        db sql s.is_batch_run = none :=
      (Engine.GetCacheLocked_congr e { e with next_alloc := e.next_alloc + 1 }
        db sql s.is_batch_run rfl rfl).trans hc
    obtain ⟨h1, h2⟩ := Engine.getInsert_miss
      { e with next_alloc := e.next_alloc + 1 } db sql
      { alloc_id := e.next_alloc, sql_context := ctx } s stok hc1
    exact ⟨(Engine.getInsert_fields _ db sql _ s stok).2.2.2.1, ctx, h1, h2⟩

/-- Writes of `Engine::Get` touch only the cache selected by the session's mode:
a batch-session call leaves the request cache untouched and a
request-session call leaves the batch cache untouched. -/
theorem Engine.Get_frame (c : SQLCompilerModel) (e : Engine) (sql db : String)
    (s : RunSession) (st : Status) :
    (s.is_batch_run = true →
      (Engine.Get c e sql db s st).engine.request_cache_ = e.request_cache_) ∧
    (s.is_batch_run = false →
      (Engine.Get c e sql db s st).engine.batch_cache_ = e.batch_cache_) := by
  cases hc : Engine.GetCacheLocked e db sql s.is_batch_run with
  | some info =>
      rw [Engine.Get_hit c e sql db s st info hc]
      exact ⟨fun _ => rfl, fun _ => rfl⟩
  | none =>
      rcases Engine.Get_miss_cases c e sql db s st hc with ⟨stf, heq⟩ | ⟨ctx, stok, heq⟩
      · rw [heq]
        exact ⟨fun _ => rfl, fun _ => rfl⟩
      · rw [heq]
        constructor
        · intro hb
          exact (Engine.getInsert_frame_batch _ db sql _ s stok hb).1
        · intro hb
          exact (Engine.getInsert_frame_request _ db sql _ s stok hb).1

/-! Claim theorems. -/

/-- C2 (code bug): `BatchRunSession::Run(rows, limit)` does not enforce
`limit`.  With a table handler yielding 2 rows and `limit = 1`, the call
succeeds and collects both rows into the vector: the `while
(iter->Valid())` loop never consults `limit`. -/
theorem claim_C2_limit_not_enforced :
    BatchRunSession.RunVec (tableRunner [{ data := 10 }, { data := 11 }])
        false [] 1 =
      (0, [{ data := 10 }, { data := 11 }]) ∧
    (BatchRunSession.RunVec (tableRunner [{ data := 10 }, { data := 11 }])
        false [] 1).2.length = 2 := by
  constructor <;> rfl

/-- C6: when the runner yields a row handler holding `R`, the no-argument
batch `Run()` returns a (non-null) table handler whose iterator yields
exactly `[R]`, and the request `Run` writes `R` into the caller's output
row and returns 0. -/
theorem claim_C6_row_normalization (runWithCache : RunnerModel) (R : Row)
    (dbg : Bool) (in_row out_row : Row)
    (h : ∀ ctx, runWithCache ctx = some (DataHandler.row R)) :
    BatchRunSession.Run runWithCache dbg = some (some [R]) ∧
    RequestRunSession.Run runWithCache dbg in_row out_row = (0, R) := by
  constructor <;> simp [BatchRunSession.Run, RequestRunSession.Run, h]

/-- Witness for C6 at `R = ⟨7⟩`. -/
theorem claim_C6_witness :
    (∀ ctx, rowRunner { data := 7 } ctx = some (DataHandler.row { data := 7 })) ∧
    BatchRunSession.Run (rowRunner { data := 7 }) false = some (some [{ data := 7 }]) ∧
    RequestRunSession.Run (rowRunner { data := 7 }) false { data := 1 } { data := 0 } =
      (0, { data := 7 }) := by
  refine ⟨fun ctx => rfl, ?_⟩
  exact claim_C6_row_normalization (rowRunner { data := 7 }) { data := 7 }
    false { data := 1 } { data := 0 } (fun ctx => rfl)

/-- C7: when the runner yields a partition handler at the root, the
request `Run` returns -1 leaving the output row unwritten, the
vector-collecting batch `Run` returns -1 appending nothing, and the
no-argument batch `Run()` returns a null table handler. -/
theorem claim_C7_partition_rejection (runWithCache : RunnerModel)
    (dbg : Bool) (in_row out_row : Row) (rows : List Row) (lim : Nat)
    (h : ∀ ctx, runWithCache ctx = some DataHandler.partition) :
    RequestRunSession.Run runWithCache dbg in_row out_row = (-1, out_row) ∧
    BatchRunSession.RunVec runWithCache dbg rows lim = (-1, rows) ∧
    BatchRunSession.Run runWithCache dbg = none := by
  refine ⟨?_, ?_, ?_⟩ <;>
    simp [RequestRunSession.Run, BatchRunSession.RunVec, BatchRunSession.Run, h]

/-- Witness for C7. -/
theorem claim_C7_witness :
    (∀ ctx, partitionRunner ctx = some DataHandler.partition) ∧
    RequestRunSession.Run partitionRunner false { data := 1 } { data := 9 } =
      (-1, { data := 9 }) ∧
    BatchRunSession.RunVec partitionRunner false [{ data := 5 }] 10 =
      (-1, [{ data := 5 }]) ∧
    BatchRunSession.Run partitionRunner false = none := by
  refine ⟨fun ctx => rfl, ?_⟩
  exact claim_C7_partition_rejection partitionRunner false { data := 1 }
    { data := 9 } [{ data := 5 }] 10 (fun ctx => rfl)

/-- C10: the vector-collecting batch `Run` only ever appends to the
caller's vector: whatever the runner produces, the final vector is the
pre-existing contents followed by the newly collected rows (`push_back`
only; the vector is never cleared). -/
theorem claim_C10_rows_appended (runWithCache : RunnerModel) (dbg : Bool)
    (rows : List Row) (lim : Nat) :
    ∃ collected,
      (BatchRunSession.RunVec runWithCache dbg rows lim).2 = rows ++ collected := by
  unfold BatchRunSession.RunVec
  cases h : runWithCache { request := none, is_debug := dbg } with
  | none => exact ⟨[], by simp⟩
  | some dh =>
      cases dh with
      | table iter =>
          cases iter with
          | none => exact ⟨[], by simp⟩
          | some trows => exact ⟨trows, by simp⟩
      | row r => exact ⟨[r], by simp⟩
      | partition => exact ⟨[], by simp⟩

/-- C1: after a successful `Get`, a second `Get` for the same (db, sql)
with a session of the same mode (catalog and options unchanged — the same
compiler model and engine state) succeeds, binds the *same* CompileInfo,
performs no compilation (`compiled = 0`: the mode-selected cache is
consulted first and the found entry returned immediately), and leaves the
engine state unchanged. -/
theorem claim_C1_cache_identity (c : SQLCompilerModel) (e : Engine)
    (sql db : String) (s1 s2 : RunSession) (st1 st2 : Status)
    (hmode : s2.is_batch_run = s1.is_batch_run)
    (h : (Engine.Get c e sql db s1 st1).ret = true) :
    (Engine.Get c (Engine.Get c e sql db s1 st1).engine sql db s2 st2).ret = true ∧
    (Engine.Get c (Engine.Get c e sql db s1 st1).engine sql db s2 st2).session.compile_info_ =
      (Engine.Get c e sql db s1 st1).session.compile_info_ ∧
    (Engine.Get c (Engine.Get c e sql db s1 st1).engine sql db s2 st2).compiled = 0 ∧
    (Engine.Get c (Engine.Get c e sql db s1 st1).engine sql db s2 st2).engine =
      (Engine.Get c e sql db s1 st1).engine := by
  obtain ⟨i, h1, h2⟩ := Engine.Get_success_cache c e sql db s1 st1 h
  have hc2 : Engine.GetCacheLocked (Engine.Get c e sql db s1 st1).engine db sql
      s2.is_batch_run = some i := by
    rw [hmode]
    exact h2
  rw [Engine.Get_hit c _ sql db s2 st2 i hc2, h1]
  exact ⟨rfl, rfl, rfl, rfl⟩

/-- Witness for C1: a batch Get on the empty engine, then a second one. -/
theorem claim_C1_witness :
    (Engine.Get okCompiler {} "select 1" "db1" { is_batch_run := true } {}).ret = true ∧
    (Engine.Get okCompiler
        (Engine.Get okCompiler {} "select 1" "db1" { is_batch_run := true } {}).engine
        "select 1" "db1" { is_batch_run := true } {}).compiled = 0 ∧
    (Engine.Get okCompiler
        (Engine.Get okCompiler {} "select 1" "db1" { is_batch_run := true } {}).engine
        "select 1" "db1" { is_batch_run := true } {}).session.compile_info_ =
      (Engine.Get okCompiler {} "select 1" "db1" { is_batch_run := true } {}).session.compile_info_ := by
  have h : (Engine.Get okCompiler {} "select 1" "db1" { is_batch_run := true } {}).ret = true := by
    decide
  have hc := claim_C1_cache_identity okCompiler {} "select 1" "db1"
    { is_batch_run := true } { is_batch_run := true } {} {} rfl h
  exact ⟨h, hc.2.2.1, hc.2.1⟩

/-- C3: if, when `Engine::Get` reaches its locked insertion step, the
mode-selected cache already holds an entry at (db, sql), then the freshly
built CompileInfo is discarded: the session is bound to the pre-existing
entry and the engine (in particular the cache entry at (db, sql)) is
returned completely unchanged — `Get` never overwrites an existing
entry. -/
theorem claim_C3_never_overwrite (e : Engine) (db sql : String)
    (info : CompileInfo) (s : RunSession) (st : Status) (existing : CompileInfo)
    (h : Engine.GetCacheLocked e db sql s.is_batch_run = some existing) :
    Engine.Get.getInsert e db sql info s st =
      { ret := true, session := s.SetCompileInfo existing, status := st,
        engine := e, compiled := 1 } := by
  cases hb : s.is_batch_run with
  | true =>
      rw [hb] at h
      simp only [Engine.GetCacheLocked, if_pos] at h
      cases hf : assocFind e.batch_cache_ db with
      | none => rw [cacheFind, hf] at h; exact absurd h (by simp)
      | some m =>
          rw [cacheFind, hf] at h
          have h' : assocFind m sql = some existing := h
          simp [Engine.Get.getInsert, hb, cacheCheckInsert, hf, h',
            assocSet_self _ _ _ hf]
  | false =>
      rw [hb] at h
      simp only [Engine.GetCacheLocked, Bool.false_eq_true, if_false] at h
      cases hf : assocFind e.request_cache_ db with
      | none => rw [cacheFind, hf] at h; exact absurd h (by simp)
      | some m =>
          rw [cacheFind, hf] at h
          have h' : assocFind m sql = some existing := h
          simp [Engine.Get.getInsert, hb, cacheCheckInsert, hf, h',
            assocSet_self _ _ _ hf]

/-- Witness for C3: a cache already holding ("db1", "q") ↦ info#5; the
insertion step with a fresh info#99 returns the engine unchanged and binds
info#5. -/
theorem claim_C3_witness :
    Engine.GetCacheLocked
        { batch_cache_ := [("db1", [("q", { alloc_id := 5, sql_context := {} })])] }
        "db1" "q" (({ is_batch_run := true } : RunSession)).is_batch_run =
      some { alloc_id := 5, sql_context := {} } ∧
    Engine.Get.getInsert
        { batch_cache_ := [("db1", [("q", { alloc_id := 5, sql_context := {} })])] }
        "db1" "q" { alloc_id := 99, sql_context := {} } { is_batch_run := true } {} =
      { ret := true,
        session := RunSession.SetCompileInfo { is_batch_run := true }
          { alloc_id := 5, sql_context := {} },
        status := {},
        engine := { batch_cache_ := [("db1", [("q", { alloc_id := 5, sql_context := {} })])] },
        compiled := 1 } :=
  ⟨by decide,
   claim_C3_never_overwrite _ "db1" "q" _ _ {} _ (by decide)⟩

/-- C5: starting from a miss on the mode-selected cache, if compilation
fails (or, with a runner build configured, the runner build fails), `Get`
returns false, the caller observes the failing compiler step's status
verbatim, and both caches are left exactly as they were (only the
allocation counter of the discarded fresh info advanced), so an identical
request afterwards re-attempts compilation. -/
theorem claim_C5_failure_uncached (c : SQLCompilerModel) (e : Engine)
    (sql db : String) (s : RunSession) (st : Status)
    (hc : Engine.GetCacheLocked e db sql s.is_batch_run = none) :
    (((c.Compile { sql := sql, db := db, is_batch_mode := s.is_batch_run }).ok = false ∨
        (c.Compile { sql := sql, db := db, is_batch_mode := s.is_batch_run }).status.code ≠ 0) →
      Engine.Get c e sql db s st =
        { ret := false, session := s,
          status := (c.Compile { sql := sql, db := db, is_batch_mode := s.is_batch_run }).status,
          engine := { e with next_alloc := e.next_alloc + 1 }, compiled := 1 }) ∧
    ((c.Compile { sql := sql, db := db, is_batch_mode := s.is_batch_run }).ok = true →
      (c.Compile { sql := sql, db := db, is_batch_mode := s.is_batch_run }).status.code = 0 →
      e.options_.is_compile_only = false →
      ((c.BuildRunner (c.Compile { sql := sql, db := db, is_batch_mode := s.is_batch_run }).ctx).ok = false ∨
        (c.BuildRunner (c.Compile { sql := sql, db := db, is_batch_mode := s.is_batch_run }).ctx).status.code ≠ 0) →
      Engine.Get c e sql db s st =
        { ret := false, session := s,
          status := (c.BuildRunner (c.Compile { sql := sql, db := db, is_batch_mode := s.is_batch_run }).ctx).status,
          engine := { e with next_alloc := e.next_alloc + 1 }, compiled := 1 }) ∧
    ((Engine.Get c e sql db s st).ret = false →
      ∀ (c' : SQLCompilerModel) (s' : RunSession) (st' : Status),
        s'.is_batch_run = s.is_batch_run →
        (Engine.Get c' (Engine.Get c e sql db s st).engine sql db s' st').compiled = 1) := by
  refine ⟨?_, ?_, ?_⟩
  · rintro (hf | hf) <;> simp [Engine.Get, hc, hf]
  · intro hok h0 hco hbf
    rcases hbf with hf | hf <;> simp [Engine.Get, hc, hok, h0, hco, hf]
  · intro hfail c' s' st' hmode
    rcases Engine.Get_miss_cases c e sql db s st hc with ⟨stf, heq⟩ | ⟨ctx, stok, heq⟩
    · rw [heq]
      apply Engine.Get_miss_compiled
      rw [hmode]
      refine (Engine.GetCacheLocked_congr e _ db sql s.is_batch_run rfl rfl).trans hc
    · rw [heq] at hfail
      rw [(Engine.getInsert_fields _ db sql _ s stok).1] at hfail
      exact absurd hfail (by simp)

/-- Witness for C5: a failing compiler on the empty engine. -/
theorem claim_C5_witness :
    Engine.GetCacheLocked {} "db1" "select 1"
        (({ is_batch_run := true } : RunSession)).is_batch_run = none ∧
    (failCompiler.Compile
        { sql := "select 1", db := "db1", is_batch_mode := true }).ok = false ∧
    Engine.Get failCompiler {} "select 1" "db1" { is_batch_run := true } {} =
      { ret := false, session := { is_batch_run := true },
        status := { code := 2, msg := "bad sql" },
        engine := { next_alloc := 1 }, compiled := 1 } ∧
    (Engine.Get okCompiler
        (Engine.Get failCompiler {} "select 1" "db1" { is_batch_run := true } {}).engine
        "select 1" "db1" { is_batch_run := true } {}).compiled = 1 := by
  have hc : Engine.GetCacheLocked {} "db1" "select 1"
      (({ is_batch_run := true } : RunSession)).is_batch_run = none := by decide
  have h := claim_C5_failure_uncached failCompiler {} "select 1" "db1"
    { is_batch_run := true } {} hc
  have h1 := h.1 (Or.inl (by decide))
  refine ⟨hc, by decide, h1, ?_⟩
  exact h.2.2 (by rw [h1]) okCompiler { is_batch_run := true } {} rfl

/-- Outputs of `Engine::Explain` are the same whatever the engine state:
only the (unchanged) engine state in the result depends on it. -/
theorem Engine.Explain_state_indep (c : SQLCompilerModel) (sql db : String)
    (is_batch : Bool) (out : Option ExplainOutput) (st : Option Status)
    (e e' : Engine) :
    Engine.Explain c e sql db is_batch out st =
      { Engine.Explain c e' sql db is_batch out st with engine := e } := by
  simp only [Engine.Explain]
  split
  · rfl
  · split <;> rfl

/-- C4: `Engine::Explain` never writes either cache (the engine state is
returned untouched), never reads them (all non-state outputs are
independent of the engine state), recompiles on every call with non-null
output arguments, and leaves a missing (db, sql) key still missing, so a
subsequent `Get` still compiles. -/
theorem claim_C4_explain_no_cache (c : SQLCompilerModel) (e : Engine)
    (sql db : String) (is_batch : Bool) (out : Option ExplainOutput)
    (st : Option Status) :
    (Engine.Explain c e sql db is_batch out st).engine = e ∧
    (∀ e' : Engine,
      (Engine.Explain c e' sql db is_batch out st).ret =
        (Engine.Explain c e sql db is_batch out st).ret ∧
      (Engine.Explain c e' sql db is_batch out st).explain_output =
        (Engine.Explain c e sql db is_batch out st).explain_output ∧
      (Engine.Explain c e' sql db is_batch out st).status =
        (Engine.Explain c e sql db is_batch out st).status ∧
      (Engine.Explain c e' sql db is_batch out st).compiled =
        (Engine.Explain c e sql db is_batch out st).compiled) ∧
    (out.isSome = true → st.isSome = true →
      (Engine.Explain c e sql db is_batch out st).compiled = 1) ∧
    (∀ (c' : SQLCompilerModel) (s : RunSession) (stg : Status),
      Engine.GetCacheLocked e db sql s.is_batch_run = none →
      (Engine.Get c' (Engine.Explain c e sql db is_batch out st).engine
        sql db s stg).compiled = 1) := by
  have heng : (Engine.Explain c e sql db is_batch out st).engine = e := by
    rw [Engine.Explain_state_indep c sql db is_batch out st e e]
  refine ⟨heng, ?_, ?_, ?_⟩
  · intro e'
    rw [Engine.Explain_state_indep c sql db is_batch out st e' e]
    exact ⟨rfl, rfl, rfl, rfl⟩
  · intro hout hst
    cases out with
    | none => simp at hout
    | some o =>
        cases st with
        | none => simp at hst
        | some s0 =>
            simp only [Engine.Explain, Option.isNone_some, Bool.or_self,
              Bool.false_eq_true, if_false]
            split <;> rfl
  · intro c' s stg hcmiss
    rw [heng]
    exact Engine.Get_miss_compiled c' e sql db s stg hcmiss

/-- Witness for C4: Explain on the empty engine, then a subsequent Get. -/
theorem claim_C4_witness :
    (some ({} : ExplainOutput)).isSome = true ∧
    (some ({} : Status)).isSome = true ∧
    (Engine.Explain okCompiler {} "select 1" "db1" true (some {}) (some {})).engine =
      ({} : Engine) ∧
    (Engine.Explain okCompiler {} "select 1" "db1" true (some {}) (some {})).compiled = 1 ∧
    (Engine.Get okCompiler
        (Engine.Explain okCompiler {} "select 1" "db1" true (some {}) (some {})).engine
        "select 1" "db1" { is_batch_run := true } {}).compiled = 1 := by
  have h := claim_C4_explain_no_cache okCompiler {} "select 1" "db1" true (some {}) (some {})
  exact ⟨rfl, rfl, h.1, h.2.2.1 rfl rfl,
    h.2.2.2 okCompiler { is_batch_run := true } {} (by decide)⟩

/-- C8: `ClearCacheLocked db` removes every (db, ·) entry from both
caches, leaves every other database's entries in both caches unchanged,
makes any following `Get` for (db, ·) recompile, and leaves a prior hit
for another database intact (`Get` still returns it with no
compilation). -/
theorem claim_C8_clear_cache_scoped (e : Engine) (db : String) :
    (∀ (sql : String) (m : Bool),
      Engine.GetCacheLocked (Engine.ClearCacheLocked e db) db sql m = none) ∧
    (∀ db' : String, db' ≠ db →
      assocFind (Engine.ClearCacheLocked e db).batch_cache_ db' =
        assocFind e.batch_cache_ db' ∧
      assocFind (Engine.ClearCacheLocked e db).request_cache_ db' =
        assocFind e.request_cache_ db') ∧
    (∀ (c : SQLCompilerModel) (sql : String) (s : RunSession) (st : Status),
      (Engine.Get c (Engine.ClearCacheLocked e db) sql db s st).compiled = 1) ∧
    (∀ (c : SQLCompilerModel) (db' sql : String) (s : RunSession) (st : Status)
        (i : CompileInfo), db' ≠ db →
      Engine.GetCacheLocked e db' sql s.is_batch_run = some i →
      Engine.Get c (Engine.ClearCacheLocked e db) sql db' s st =
        { ret := true, session := s.SetCompileInfo i, status := st,
          engine := Engine.ClearCacheLocked e db, compiled := 0 }) := by
  refine ⟨?_, ?_, ?_, ?_⟩
  · intro sql m
    cases m <;> simp [Engine.ClearCacheLocked, Engine.GetCacheLocked, cacheFind,
      assocFind_assocErase_self]
  · intro db' hne
    exact ⟨assocFind_assocErase_ne _ db db' hne, assocFind_assocErase_ne _ db db' hne⟩
  · intro c sql s st
    apply Engine.Get_miss_compiled
    cases hm : s.is_batch_run <;> simp [Engine.ClearCacheLocked,
      Engine.GetCacheLocked, cacheFind, assocFind_assocErase_self]
  · intro c db' sql s st i hne hhit
    apply Engine.Get_hit
    have hsame : Engine.GetCacheLocked (Engine.ClearCacheLocked e db) db' sql
        s.is_batch_run = Engine.GetCacheLocked e db' sql s.is_batch_run := by
      cases hm : s.is_batch_run <;> simp [Engine.ClearCacheLocked,
        Engine.GetCacheLocked, cacheFind, assocFind_assocErase_ne _ db db' hne]
    rw [hsame]
    exact hhit

/-- Witness for C8: two databases each caching "q"; clearing "d1" makes
(d1, q) recompile while (d2, q) still hits its prior entry. -/
theorem claim_C8_witness :
    ("d2" : String) ≠ "d1" ∧
    Engine.GetCacheLocked
        { batch_cache_ := [("d1", [("q", { alloc_id := 1, sql_context := {} })]),
                           ("d2", [("q", { alloc_id := 2, sql_context := {} })])] }
        "d2" "q" (({ is_batch_run := true } : RunSession)).is_batch_run =
      some { alloc_id := 2, sql_context := {} } ∧
    Engine.GetCacheLocked
        (Engine.ClearCacheLocked
          { batch_cache_ := [("d1", [("q", { alloc_id := 1, sql_context := {} })]),
                             ("d2", [("q", { alloc_id := 2, sql_context := {} })])] }
          "d1") "d1" "q" true = none ∧
    (Engine.Get okCompiler
        (Engine.ClearCacheLocked
          { batch_cache_ := [("d1", [("q", { alloc_id := 1, sql_context := {} })]),
                             ("d2", [("q", { alloc_id := 2, sql_context := {} })])] }
          "d1") "q" "d1" { is_batch_run := true } {}).compiled = 1 ∧
    Engine.Get okCompiler
        (Engine.ClearCacheLocked
          { batch_cache_ := [("d1", [("q", { alloc_id := 1, sql_context := {} })]),
                             ("d2", [("q", { alloc_id := 2, sql_context := {} })])] }
          "d1") "q" "d2" { is_batch_run := true } {} =
      { ret := true,
        session := RunSession.SetCompileInfo { is_batch_run := true }
          { alloc_id := 2, sql_context := {} },
        status := {},
        engine := Engine.ClearCacheLocked
          { batch_cache_ := [("d1", [("q", { alloc_id := 1, sql_context := {} })]),
                             ("d2", [("q", { alloc_id := 2, sql_context := {} })])] }
          "d1",
        compiled := 0 } := by
  have h := claim_C8_clear_cache_scoped
    { batch_cache_ := [("d1", [("q", { alloc_id := 1, sql_context := {} })]),
                       ("d2", [("q", { alloc_id := 2, sql_context := {} })])] }
    "d1"
  exact ⟨by decide, by decide, h.1 "q" true,
    h.2.2.1 okCompiler "q" { is_batch_run := true } {},
    h.2.2.2 okCompiler "d2" "q" { is_batch_run := true } {}
      { alloc_id := 2, sql_context := {} } (by decide) (by decide)⟩

/-- C9: a batch-session `Get` writes only the batch cache and a
request-session `Get` writes only the request cache; `GetCacheLocked`
reads only the cache selected by the mode; and compiling the same
(db, sql) once in each mode stores two distinct CompileInfo entries, one
in each cache. -/
theorem claim_C9_mode_isolation (c : SQLCompilerModel) (e : Engine)
    (sql db : String) (sB sR : RunSession) (stB stR : Status)
    (hB : sB.is_batch_run = true) (hR : sR.is_batch_run = false) :
    (Engine.Get c e sql db sB stB).engine.request_cache_ = e.request_cache_ ∧
    (Engine.Get c e sql db sR stR).engine.batch_cache_ = e.batch_cache_ ∧
    (∀ e' : Engine, e'.batch_cache_ = e.batch_cache_ →
      Engine.GetCacheLocked e' db sql true = Engine.GetCacheLocked e db sql true) ∧
    (∀ e' : Engine, e'.request_cache_ = e.request_cache_ →
      Engine.GetCacheLocked e' db sql false = Engine.GetCacheLocked e db sql false) ∧
    (cacheFind e.batch_cache_ db sql = none →
     cacheFind e.request_cache_ db sql = none →
     (Engine.Get c e sql db sB stB).ret = true →
     (Engine.Get c (Engine.Get c e sql db sB stB).engine sql db sR stR).ret = true →
     ∃ i1 i2,
       cacheFind (Engine.Get c (Engine.Get c e sql db sB stB).engine
         sql db sR stR).engine.batch_cache_ db sql = some i1 ∧
       cacheFind (Engine.Get c (Engine.Get c e sql db sB stB).engine
         sql db sR stR).engine.request_cache_ db sql = some i2 ∧
       i1.alloc_id = e.next_alloc ∧ i2.alloc_id = e.next_alloc + 1 ∧ i1 ≠ i2) := by
  refine ⟨(Engine.Get_frame c e sql db sB stB).1 hB,
    (Engine.Get_frame c e sql db sR stR).2 hR,
    fun e' hbe => by simp [Engine.GetCacheLocked, hbe],
    fun e' hre => by simp [Engine.GetCacheLocked, hre], ?_⟩
  intro hbm hrm hr1 hr2
  have hc1 : Engine.GetCacheLocked e db sql sB.is_batch_run = none := by
    rw [hB]
    simp [Engine.GetCacheLocked, hbm]
  obtain ⟨hna1, ctx1, hs1, hfound1⟩ := Engine.Get_miss_success c e sql db sB stB hc1 hr1
  rw [hB] at hfound1
  simp only [Engine.GetCacheLocked, if_pos] at hfound1
  have hreq_frame : (Engine.Get c e sql db sB stB).engine.request_cache_ =
      e.request_cache_ := (Engine.Get_frame c e sql db sB stB).1 hB
  have hc2 : Engine.GetCacheLocked (Engine.Get c e sql db sB stB).engine db sql
      sR.is_batch_run = none := by
    rw [hR]
    simp [Engine.GetCacheLocked, hreq_frame, hrm]
  obtain ⟨hna2, ctx2, hs2, hfound2⟩ :=
    Engine.Get_miss_success c _ sql db sR stR hc2 hr2
  rw [hR] at hfound2
  simp only [Engine.GetCacheLocked, Bool.false_eq_true, if_false] at hfound2
  have hbatch_frame :
      (Engine.Get c (Engine.Get c e sql db sB stB).engine sql db sR stR).engine.batch_cache_ =
        (Engine.Get c e sql db sB stB).engine.batch_cache_ :=
    (Engine.Get_frame c _ sql db sR stR).2 hR
  rw [hna1] at hfound2
  refine ⟨{ alloc_id := e.next_alloc, sql_context := ctx1 },
    { alloc_id := e.next_alloc + 1, sql_context := ctx2 }, ?_, hfound2, rfl, rfl, ?_⟩
  · rw [hbatch_frame]
    exact hfound1
  · intro hcontra
    have : e.next_alloc = e.next_alloc + 1 := congrArg CompileInfo.alloc_id hcontra
    omega

/-- Witness for C9: batch then request compilation of ("d", "q") on the
empty engine yields different entries in the two caches. -/
theorem claim_C9_witness :
    cacheFind (({} : Engine)).batch_cache_ "d" "q" = none ∧
    cacheFind (({} : Engine)).request_cache_ "d" "q" = none ∧
    (Engine.Get okCompiler {} "q" "d" { is_batch_run := true } {}).ret = true ∧
    (Engine.Get okCompiler
        (Engine.Get okCompiler {} "q" "d" { is_batch_run := true } {}).engine
        "q" "d" { is_batch_run := false } {}).ret = true ∧
    cacheFind (Engine.Get okCompiler
        (Engine.Get okCompiler {} "q" "d" { is_batch_run := true } {}).engine
        "q" "d" { is_batch_run := false } {}).engine.batch_cache_ "d" "q" ≠
      cacheFind (Engine.Get okCompiler
        (Engine.Get okCompiler {} "q" "d" { is_batch_run := true } {}).engine
        "q" "d" { is_batch_run := false } {}).engine.request_cache_ "d" "q" := by
  have h := claim_C9_mode_isolation okCompiler {} "q" "d"
    { is_batch_run := true } { is_batch_run := false } {} {} rfl rfl
  obtain ⟨i1, i2, h1, h2, ha1, ha2, hne⟩ :=
    h.2.2.2.2 (by decide) (by decide) (by decide) (by decide)
  refine ⟨by decide, by decide, by decide, by decide, ?_⟩
  rw [h1, h2]
  intro heq
  exact hne (Option.some.inj heq)
